import Mathlib

/-!
Verification development for the synchronous secret-handshake protocol driver
of the ssb-study repository (src/src/sync/handshake.rs).

Bytes are modelled as natural numbers and byte buffers as lists of naturals.
The cryptographic handshake engine (crate::handshake) is an external
collaborator that is not part of the driver source; the driver is therefore
embedded generically over an engine interface whose shape (operation names,
which operations are fallible, which produce or consume buffers) is exactly
the shape used by the driver call sites in src/src/sync/handshake.rs.
A concrete engine, modelled from the specification, instantiates the
interface for the paired-run (client/server symmetry) claims.
-/

namespace SSB

/-- A transport, modelled from the trait bound T: Read + Write of the driver.
The state type S is the stream's private state; read_exact n either yields
exactly the demanded bytes together with the successor state or an I/O error
code, and write_all either accepts all bytes or fails with an I/O error code
(io::Error is abstracted to a numeric code). -/
structure StreamModel where
  S : Type
  read_exact : Nat → S → Except Nat (List Nat × S)
  write_all : List Nat → S → Except Nat S

/-- A connected, already-buffered byte source: the stream state is the list of
bytes still available to read. read_exact n yields the first n bytes, or
error code 0 (the model of io::ErrorKind::UnexpectedEof raised by read_exact
when the underlying stream ends early); writes are always accepted (they are
observed through the driver's event trace instead). -/
def Buf : StreamModel where
  S := List Nat
  read_exact := fun n l =>
    if n ≤ l.length then Except.ok (l.take n, l.drop n) else Except.error 0
  write_all := fun _ l => Except.ok l

/-- The error type of src/sync: exactly two variants, from src/sync/error.rs
as used by src/src/sync/handshake.rs lines 9-19. -/
inductive Error where
  | Io (e : Nat)
  | Handshake (e : Nat)
deriving DecidableEq

/-- The impl From<io::Error> for Error of src/src/sync/handshake.rs lines 9-13:
every I/O failure is wrapped in the Io variant. -/
def from_io_error (e : Nat) : Error := Error.Io e

/-- The impl From<handshake::Error> for Error of src/src/sync/handshake.rs
lines 15-19: every engine rejection is wrapped in the Handshake variant. -/
def from_handshake_error (e : Nat) : Error := Error.Handshake e

/-- Observable I/O behaviour of one driver invocation: a completed write of
the given bytes, a completed read of n bytes yielding the given data, a
failed write, a failed read, or an engine (protocol) rejection. -/
inductive Event where
  | W (data : List Nat)
  | R (n : Nat) (data : List Nat)
  | WErr (data : List Nat) (e : Nat)
  | RErr (n : Nat) (e : Nat)
  | EErr (e : Nat)
deriving DecidableEq

/-- An event that is not a failure marker. -/
def isOkEv : Event → Bool
  | Event.W _ => true
  | Event.R _ _ => true
  | _ => false

/-- The bytes a run put on the wire, in order: the concatenation of the data
of all completed writes of its trace. -/
def writesOf : List Event → List Nat
  | [] => []
  | Event.W d :: tl => d ++ writesOf tl
  | _ :: tl => writesOf tl

/-- The completed-handshake record, from crate::handshake's HandshakeComplete
as described by the spec's data model (six fields). -/
structure HandshakeComplete where
  net_id : Nat
  shared_secret : Nat
  pk : Nat
  peer_pk : Nat
  ephemeral_pk : Nat
  peer_ephemeral_pk : Nat
deriving DecidableEq

/-- Outcome of one driver invocation: success with the completed record,
a typed failure, or a Rust panic (out-of-bounds slice of the scratch
buffer). -/
inductive RunResult where
  | ok (c : HandshakeComplete)
  | fail (e : Error)
  | panicked
deriving DecidableEq

/-- The engine interface for the client role, exactly as consumed by
handshake_client (src/src/sync/handshake.rs lines 21-48): five typestates;
send_bytes and recv_bytes are queried on the current state; send_client_hello
fills the send buffer infallibly; recv_server_hello and recv_server_accept
consume a received buffer fallibly; send_client_auth takes the expected peer
public key and is fallible (line 40 applies the ? operator to it);
complete converts the terminal state infallibly. -/
structure ClientEngine where
  SC1 : Type
  SC2 : Type
  SC3 : Type
  SC4 : Type
  SC5 : Type
  new_client : Nat → Nat → Nat → SC1
  send_bytes1 : SC1 → Nat
  send_client_hello : SC1 → List Nat × SC2
  recv_bytes2 : SC2 → Nat
  recv_server_hello : SC2 → List Nat → Except Nat SC3
  send_bytes3 : SC3 → Nat
  send_client_auth : SC3 → Nat → Except Nat (List Nat × SC4)
  recv_bytes4 : SC4 → Nat
  recv_server_accept : SC4 → List Nat → Except Nat SC5
  complete : SC5 → HandshakeComplete

/-- The engine interface for the server role, exactly as consumed by
handshake_server (src/src/sync/handshake.rs lines 50-76); note new_server
takes no expected-peer public key, and both server send steps
(send_server_hello, send_server_accept) are infallible. -/
structure ServerEngine where
  SS1 : Type
  SS2 : Type
  SS3 : Type
  SS4 : Type
  SS5 : Type
  new_server : Nat → Nat → Nat → SS1
  recv_bytes1 : SS1 → Nat
  recv_client_hello : SS1 → List Nat → Except Nat SS2
  send_bytes2 : SS2 → Nat
  send_server_hello : SS2 → List Nat × SS3
  recv_bytes3 : SS3 → Nat
  recv_client_auth : SS3 → List Nat → Except Nat SS4
  send_bytes4 : SS4 → Nat
  send_server_accept : SS4 → List Nat × SS5
  complete : SS5 → HandshakeComplete

/-- The contents of the n-byte scratch slice after the engine wrote the
message m into it: Rust's buffer keeps exactly n bytes regardless of m, so
the message is truncated or zero-padded to length n. -/
def padTrunc (n : Nat) (m : List Nat) : List Nat :=
  m.take n ++ List.replicate (n - m.length) 0

/-- One send round of the driver, from the source's three-line pattern
(slice the 128-byte scratch buffer to n = send_bytes(), let the engine fill
it - fallibly for send_client_auth, infallibly otherwise - then write_all):
slicing buf[..n] with n > 128 panics; an engine rejection aborts with a
Handshake error before any write; a write failure aborts with an Io error;
otherwise the continuation proceeds with the next state. -/
def doSendF (SM : StreamModel) (β : Type) (n : Nat) (fill : Except Nat (List Nat × β))
    (st : SM.S) (tr : List Event)
    (k : β → SM.S → List Event → RunResult × List Event) : RunResult × List Event :=
  if n ≤ 128 then
    match fill with
    | Except.error e => (RunResult.fail (from_handshake_error e), tr ++ [Event.EErr e])
    | Except.ok p =>
      match SM.write_all (padTrunc n p.1) st with
      | Except.error e =>
          (RunResult.fail (from_io_error e), tr ++ [Event.WErr (padTrunc n p.1) e])
      | Except.ok st2 => k p.2 st2 (tr ++ [Event.W (padTrunc n p.1)])
  else (RunResult.panicked, tr)

/-- One receive round of the driver, from the source's three-line pattern
(slice the scratch buffer to n = recv_bytes(), read_exact into it, then let
the engine consume it fallibly): slicing buf[..n] with n > 128 panics; a
read failure aborts with an Io error; an engine rejection aborts with a
Handshake error; otherwise the continuation proceeds with the next state. -/
def doRecvF (SM : StreamModel) (β : Type) (n : Nat) (st : SM.S) (tr : List Event)
    (adv : List Nat → Except Nat β)
    (k : β → SM.S → List Event → RunResult × List Event) : RunResult × List Event :=
  if n ≤ 128 then
    match SM.read_exact n st with
    | Except.error e => (RunResult.fail (from_io_error e), tr ++ [Event.RErr n e])
    | Except.ok p =>
      match adv p.1 with
      | Except.error e =>
          (RunResult.fail (from_handshake_error e), tr ++ [Event.R n p.1, Event.EErr e])
      | Except.ok b => k b p.2 (tr ++ [Event.R n p.1])
  else (RunResult.panicked, tr)

/-- The client driver, from src/src/sync/handshake.rs lines 21-48:
send client hello, receive server hello, send client auth (with the
caller-supplied expected server public key), receive server accept, then
convert the terminal state into the completed record. The returned trace
lists the I/O operations in execution order. -/
def handshake_client (SM : StreamModel) (E : ClientEngine) (net_id pk sk server_pk : Nat)
    (st : SM.S) : RunResult × List Event :=
  doSendF SM E.SC2 (E.send_bytes1 (E.new_client net_id pk sk))
      (Except.ok (E.send_client_hello (E.new_client net_id pk sk))) st []
    (fun s2 st1 tr1 =>
      doRecvF SM E.SC3 (E.recv_bytes2 s2) st1 tr1 (E.recv_server_hello s2)
        (fun s3 st2 tr2 =>
          doSendF SM E.SC4 (E.send_bytes3 s3) (E.send_client_auth s3 server_pk) st2 tr2
            (fun s4 st3 tr3 =>
              doRecvF SM E.SC5 (E.recv_bytes4 s4) st3 tr3 (E.recv_server_accept s4)
                (fun s5 _ tr4 => (RunResult.ok (E.complete s5), tr4)))))

/-- The server driver, from src/src/sync/handshake.rs lines 50-76:
receive client hello, send server hello, receive client auth, send server
accept, then convert the terminal state into the completed record. The
entry point takes no expected-peer public key. -/
def handshake_server (SM : StreamModel) (E : ServerEngine) (net_id pk sk : Nat)
    (st : SM.S) : RunResult × List Event :=
  doRecvF SM E.SS2 (E.recv_bytes1 (E.new_server net_id pk sk)) st []
      (E.recv_client_hello (E.new_server net_id pk sk))
    (fun s2 st1 tr1 =>
      doSendF SM E.SS3 (E.send_bytes2 s2) (Except.ok (E.send_server_hello s2)) st1 tr1
        (fun s3 st2 tr2 =>
          doRecvF SM E.SS4 (E.recv_bytes3 s3) st2 tr2 (E.recv_client_auth s3)
            (fun s4 st3 tr3 =>
              doSendF SM E.SS5 (E.send_bytes4 s4) (Except.ok (E.send_server_accept s4)) st3 tr3
                (fun s5 _ tr4 => (RunResult.ok (E.complete s5), tr4)))))

/-- Modelled from the spec: client engine state before the server's
ephemeral key is known (the spec's role-parameterized handshake state
carrying identity material; crate::handshake is not under src/). -/
structure CHello where
  ni : Nat
  pk : Nat
  sk : Nat
  eph : Nat
deriving DecidableEq

/-- Modelled from the spec: client engine state once the peer's ephemeral
public key has been received. -/
structure CPostHello where
  ni : Nat
  pk : Nat
  sk : Nat
  eph : Nat
  peer_eph : Nat
deriving DecidableEq

/-- Modelled from the spec: client engine state once the authentication
round fixed the peer identity and derived the session secret. -/
structure CPostAuth where
  ni : Nat
  pk : Nat
  sk : Nat
  eph : Nat
  peer_eph : Nat
  peer_pk : Nat
  ss : Nat
deriving DecidableEq

/-- Modelled from the spec: server engine state at entry. -/
structure SHello where
  ni : Nat
  pk : Nat
  sk : Nat
  eph : Nat
deriving DecidableEq

/-- Modelled from the spec: server engine state once the client's ephemeral
public key has been received. -/
structure SPostHello where
  ni : Nat
  pk : Nat
  sk : Nat
  eph : Nat
  peer_eph : Nat
deriving DecidableEq

/-- Modelled from the spec: server engine state once the client's identity
has been learnt and the session secret derived. -/
structure SPostAuth where
  ni : Nat
  pk : Nat
  sk : Nat
  eph : Nat
  peer_eph : Nat
  peer_pk : Nat
  ss : Nat
deriving DecidableEq

/-- Modelled from the spec: the ephemeral (per-connection) key derived for a
long-term secret key; kept an arbitrary injective-free abstraction. -/
def ephOf (sk : Nat) : Nat := 2 * sk + 1

/-- Modelled from the spec: the keyed tag with which each side proves
knowledge of the shared network identifier over a message value. -/
def macTag (k m : Nat) : Nat := 2 * k + 3 * m + 1

/-- Modelled from the spec: the commutative key-exchange combination of an
own secret value and a peer public value. -/
def dh (a b : Nat) : Nat := a * b

/-- Modelled from the spec: the cryptographic client engine
(crate::handshake, not under src/). Hello messages carry a network-id tag
and an ephemeral public key; the authentication message carries a tag and
the client's long-term public key; the acceptance message carries a tag over
the derived shared secret; send_client_auth is fallible (it can reject the
expected peer key, modelled as rejecting key 0). -/
def SpecClient : ClientEngine where
  SC1 := CHello
  SC2 := CHello
  SC3 := CPostHello
  SC4 := CPostAuth
  SC5 := CPostAuth
  new_client := fun ni pk sk => ⟨ni, pk, sk, ephOf sk⟩
  send_bytes1 := fun _ => 2
  send_client_hello := fun s => ([macTag s.ni s.eph, s.eph], s)
  recv_bytes2 := fun _ => 2
  recv_server_hello := fun s d =>
    match d with
    | [t, se] =>
      if t = macTag s.ni se then Except.ok ⟨s.ni, s.pk, s.sk, s.eph, se⟩
      else Except.error 1
    | _ => Except.error 2
  send_bytes3 := fun _ => 2
  send_client_auth := fun s server_pk =>
    if server_pk = 0 then Except.error 3
    else Except.ok ([macTag s.ni s.pk, s.pk],
      ⟨s.ni, s.pk, s.sk, s.eph, s.peer_eph, server_pk, dh s.eph s.peer_eph⟩)
  recv_bytes4 := fun _ => 1
  recv_server_accept := fun s d =>
    match d with
    | [t] => if t = macTag s.ni s.ss then Except.ok s else Except.error 4
    | _ => Except.error 5
  complete := fun s => ⟨s.ni, s.ss, s.pk, s.peer_pk, s.eph, s.peer_eph⟩

/-- Modelled from the spec: the cryptographic server engine
(crate::handshake, not under src/), symmetric to SpecClient; the server
learns the client's identity from the authentication message. -/
def SpecServer : ServerEngine where
  SS1 := SHello
  SS2 := SPostHello
  SS3 := SPostHello
  SS4 := SPostAuth
  SS5 := SPostAuth
  new_server := fun ni pk sk => ⟨ni, pk, sk, ephOf sk⟩
  recv_bytes1 := fun _ => 2
  recv_client_hello := fun s d =>
    match d with
    | [t, ce] =>
      if t = macTag s.ni ce then Except.ok ⟨s.ni, s.pk, s.sk, s.eph, ce⟩
      else Except.error 11
    | _ => Except.error 12
  send_bytes2 := fun _ => 2
  send_server_hello := fun s => ([macTag s.ni s.eph, s.eph], s)
  recv_bytes3 := fun _ => 2
  recv_client_auth := fun s d =>
    match d with
    | [t, cpk] =>
      if t = macTag s.ni cpk then
        Except.ok ⟨s.ni, s.pk, s.sk, s.eph, s.peer_eph, cpk, dh s.eph s.peer_eph⟩
      else Except.error 13
    | _ => Except.error 14
  send_bytes4 := fun _ => 1
  send_server_accept := fun s => ([macTag s.ni s.ss], s)
  complete := fun s => ⟨s.ni, s.ss, s.pk, s.peer_pk, s.eph, s.peer_eph⟩

/-- A degenerate client engine whose first round demands a 200-byte buffer;
used to exercise the out-of-bounds slice of the 128-byte scratch array. -/
def WideClient : ClientEngine where
  SC1 := Unit
  SC2 := Unit
  SC3 := Unit
  SC4 := Unit
  SC5 := Unit
  new_client := fun _ _ _ => ()
  send_bytes1 := fun _ => 200
  send_client_hello := fun _ => ([], ())
  recv_bytes2 := fun _ => 0
  recv_server_hello := fun _ _ => Except.error 0
  send_bytes3 := fun _ => 0
  send_client_auth := fun _ _ => Except.error 0
  recv_bytes4 := fun _ => 0
  recv_server_accept := fun _ _ => Except.error 0
  complete := fun _ => ⟨0, 0, 0, 0, 0, 0⟩

/-- A degenerate client engine whose second round demands a 200-byte buffer. -/
def Wide2Client : ClientEngine where
  SC1 := Unit
  SC2 := Unit
  SC3 := Unit
  SC4 := Unit
  SC5 := Unit
  new_client := fun _ _ _ => ()
  send_bytes1 := fun _ => 0
  send_client_hello := fun _ => ([], ())
  recv_bytes2 := fun _ => 200
  recv_server_hello := fun _ _ => Except.error 0
  send_bytes3 := fun _ => 0
  send_client_auth := fun _ _ => Except.error 0
  recv_bytes4 := fun _ => 0
  recv_server_accept := fun _ _ => Except.error 0
  complete := fun _ => ⟨0, 0, 0, 0, 0, 0⟩

/-- A degenerate server engine whose first round demands a 200-byte buffer. -/
def WideServer : ServerEngine where
  SS1 := Unit
  SS2 := Unit
  SS3 := Unit
  SS4 := Unit
  SS5 := Unit
  new_server := fun _ _ _ => ()
  recv_bytes1 := fun _ => 200
  recv_client_hello := fun _ _ => Except.error 0
  send_bytes2 := fun _ => 0
  send_server_hello := fun _ => ([], ())
  recv_bytes3 := fun _ => 0
  recv_client_auth := fun _ _ => Except.error 0
  send_bytes4 := fun _ => 0
  send_server_accept := fun _ => ([], ())
  complete := fun _ => ⟨0, 0, 0, 0, 0, 0⟩

/-- A transport satisfying the byte-exact read contract of the spec:
whenever read_exact succeeds it returns exactly the demanded number of
bytes. -/
def StreamExact (SM : StreamModel) : Prop :=
  ∀ n s d s2, SM.read_exact n s = Except.ok (d, s2) → d.length = n

/-- A successful concurrent client/server run over a connected duplex
transport, with both sides sharing the network identifier and the client
given the server's long-term public key: each side's received byte stream is
exactly the byte stream the other side wrote. -/
def paired_run (ni cpk csk spk ssk : Nat) (c s : HandshakeComplete)
    (tc ts : List Event) : Prop :=
  handshake_client Buf SpecClient ni cpk csk spk (writesOf ts) = (RunResult.ok c, tc) ∧
  handshake_server Buf SpecServer ni spk ssk (writesOf tc) = (RunResult.ok s, ts)

/-- Decomposition of a successful client run: four rounds in the fixed order
send hello / receive server hello / send auth (with the caller-supplied
expected peer key) / receive server accept, each advancing the engine state,
followed by the infallible conversion into the completed record; the trace
is exactly the four I/O operations in that order. -/
def ClientRoundsOk (SM : StreamModel) (E : ClientEngine) (ni pk sk server_pk : Nat)
    (st : SM.S) (c : HandshakeComplete) (tr : List Event) : Prop :=
  ∃ st1 d2 st2 s3 p st3 d4 st4 s5,
    SM.write_all (padTrunc (E.send_bytes1 (E.new_client ni pk sk))
        (E.send_client_hello (E.new_client ni pk sk)).1) st = Except.ok st1 ∧
    SM.read_exact (E.recv_bytes2 (E.send_client_hello (E.new_client ni pk sk)).2) st1
      = Except.ok (d2, st2) ∧
    E.recv_server_hello (E.send_client_hello (E.new_client ni pk sk)).2 d2 = Except.ok s3 ∧
    E.send_client_auth s3 server_pk = Except.ok p ∧
    SM.write_all (padTrunc (E.send_bytes3 s3) p.1) st2 = Except.ok st3 ∧
    SM.read_exact (E.recv_bytes4 p.2) st3 = Except.ok (d4, st4) ∧
    E.recv_server_accept p.2 d4 = Except.ok s5 ∧
    c = E.complete s5 ∧
    tr = [Event.W (padTrunc (E.send_bytes1 (E.new_client ni pk sk))
            (E.send_client_hello (E.new_client ni pk sk)).1),
          Event.R (E.recv_bytes2 (E.send_client_hello (E.new_client ni pk sk)).2) d2,
          Event.W (padTrunc (E.send_bytes3 s3) p.1),
          Event.R (E.recv_bytes4 p.2) d4]

/-- Decomposition of a successful server run: four rounds in the fixed
reversed order receive client hello / send server hello / receive client
auth / send server accept, followed by the infallible conversion into the
completed record; the trace is exactly the four I/O operations in that
order. -/
def ServerRoundsOk (SM : StreamModel) (E : ServerEngine) (ni pk sk : Nat)
    (st : SM.S) (s : HandshakeComplete) (tr : List Event) : Prop :=
  ∃ d1 st1 s2 st2 d3 st3 s4 st4,
    SM.read_exact (E.recv_bytes1 (E.new_server ni pk sk)) st = Except.ok (d1, st1) ∧
    E.recv_client_hello (E.new_server ni pk sk) d1 = Except.ok s2 ∧
    SM.write_all (padTrunc (E.send_bytes2 s2) (E.send_server_hello s2).1) st1
      = Except.ok st2 ∧
    SM.read_exact (E.recv_bytes3 (E.send_server_hello s2).2) st2 = Except.ok (d3, st3) ∧
    E.recv_client_auth (E.send_server_hello s2).2 d3 = Except.ok s4 ∧
    SM.write_all (padTrunc (E.send_bytes4 s4) (E.send_server_accept s4).1) st3
      = Except.ok st4 ∧
    s = E.complete (E.send_server_accept s4).2 ∧
    tr = [Event.R (E.recv_bytes1 (E.new_server ni pk sk)) d1,
          Event.W (padTrunc (E.send_bytes2 s2) (E.send_server_hello s2).1),
          Event.R (E.recv_bytes3 (E.send_server_hello s2).2) d3,
          Event.W (padTrunc (E.send_bytes4 s4) (E.send_server_accept s4).1)]

/-- Byte-exact accounting of a successful client run: every round's buffer
size is re-queried from the round's current state, the written buffers have
exactly the queried sizes, the read data has exactly the queried sizes, and
exactly the read data is passed to the engine's advance functions. -/
def ClientSized (E : ClientEngine) (ni pk sk server_pk : Nat)
    (c : HandshakeComplete) (tr : List Event) : Prop :=
  ∃ d2 s3 p d4 s5,
    tr = [Event.W (padTrunc (E.send_bytes1 (E.new_client ni pk sk))
            (E.send_client_hello (E.new_client ni pk sk)).1),
          Event.R (E.recv_bytes2 (E.send_client_hello (E.new_client ni pk sk)).2) d2,
          Event.W (padTrunc (E.send_bytes3 s3) p.1),
          Event.R (E.recv_bytes4 p.2) d4] ∧
    (padTrunc (E.send_bytes1 (E.new_client ni pk sk))
        (E.send_client_hello (E.new_client ni pk sk)).1).length
      = E.send_bytes1 (E.new_client ni pk sk) ∧
    d2.length = E.recv_bytes2 (E.send_client_hello (E.new_client ni pk sk)).2 ∧
    (padTrunc (E.send_bytes3 s3) p.1).length = E.send_bytes3 s3 ∧
    d4.length = E.recv_bytes4 p.2 ∧
    E.recv_server_hello (E.send_client_hello (E.new_client ni pk sk)).2 d2 = Except.ok s3 ∧
    E.send_client_auth s3 server_pk = Except.ok p ∧
    E.recv_server_accept p.2 d4 = Except.ok s5 ∧
    c = E.complete s5

/-- Byte-exact accounting of a successful server run, symmetric to
ClientSized. -/
def ServerSized (E : ServerEngine) (ni pk sk : Nat)
    (s : HandshakeComplete) (tr : List Event) : Prop :=
  ∃ d1 s2 d3 s4,
    tr = [Event.R (E.recv_bytes1 (E.new_server ni pk sk)) d1,
          Event.W (padTrunc (E.send_bytes2 s2) (E.send_server_hello s2).1),
          Event.R (E.recv_bytes3 (E.send_server_hello s2).2) d3,
          Event.W (padTrunc (E.send_bytes4 s4) (E.send_server_accept s4).1)] ∧
    d1.length = E.recv_bytes1 (E.new_server ni pk sk) ∧
    (padTrunc (E.send_bytes2 s2) (E.send_server_hello s2).1).length = E.send_bytes2 s2 ∧
    d3.length = E.recv_bytes3 (E.send_server_hello s2).2 ∧
    (padTrunc (E.send_bytes4 s4) (E.send_server_accept s4).1).length = E.send_bytes4 s4 ∧
    E.recv_client_hello (E.new_server ni pk sk) d1 = Except.ok s2 ∧
    E.recv_client_auth (E.send_server_hello s2).2 d3 = Except.ok s4 ∧
    s = E.complete (E.send_server_accept s4).2

/-- Shape of every driver failure: the trace is a sequence of completed
operations followed by exactly one failure marker, and the returned error
wraps that failure's origin through the matching From conversion - an I/O
failure through from_io_error, an engine rejection through
from_handshake_error - with nothing executed afterwards. -/
def FailShape (err : Error) (tr : List Event) : Prop :=
  ∃ tr0 ev, tr = tr0 ++ [ev] ∧ tr0.all isOkEv = true ∧
    ((∃ n e, ev = Event.RErr n e ∧ err = from_io_error e) ∨
     (∃ d e, ev = Event.WErr d e ∧ err = from_io_error e) ∨
     (∃ e, ev = Event.EErr e ∧ err = from_handshake_error e))

/-- Origin of a client-side protocol failure: one of the three fallible
engine advances - receive-server-hello, send-client-auth (a send round!), or
receive-server-accept - rejected, each reached only after all earlier rounds
succeeded. -/
def ClientHsOrigin (SM : StreamModel) (E : ClientEngine) (ni pk sk server_pk : Nat)
    (st : SM.S) (e : Nat) : Prop :=
  ∃ st1 d2 st2,
    SM.write_all (padTrunc (E.send_bytes1 (E.new_client ni pk sk))
        (E.send_client_hello (E.new_client ni pk sk)).1) st = Except.ok st1 ∧
    SM.read_exact (E.recv_bytes2 (E.send_client_hello (E.new_client ni pk sk)).2) st1
      = Except.ok (d2, st2) ∧
    (E.recv_server_hello (E.send_client_hello (E.new_client ni pk sk)).2 d2
        = Except.error e ∨
     (∃ s3, E.recv_server_hello (E.send_client_hello (E.new_client ni pk sk)).2 d2
          = Except.ok s3 ∧
        (E.send_client_auth s3 server_pk = Except.error e ∨
         (∃ p st3 d4 st4, E.send_client_auth s3 server_pk = Except.ok p ∧
            SM.write_all (padTrunc (E.send_bytes3 s3) p.1) st2 = Except.ok st3 ∧
            SM.read_exact (E.recv_bytes4 p.2) st3 = Except.ok (d4, st4) ∧
            E.recv_server_accept p.2 d4 = Except.error e))))

/-- Origin of a server-side protocol failure: one of the two fallible engine
advances - receive-client-hello or receive-client-auth - rejected; the two
server send rounds (send_server_hello, send_server_accept) are infallible
and can never be the origin. -/
def ServerHsOrigin (SM : StreamModel) (E : ServerEngine) (ni pk sk : Nat)
    (st : SM.S) (e : Nat) : Prop :=
  ∃ d1 st1,
    SM.read_exact (E.recv_bytes1 (E.new_server ni pk sk)) st = Except.ok (d1, st1) ∧
    (E.recv_client_hello (E.new_server ni pk sk) d1 = Except.error e ∨
     (∃ s2 st2 d3 st3, E.recv_client_hello (E.new_server ni pk sk) d1 = Except.ok s2 ∧
        SM.write_all (padTrunc (E.send_bytes2 s2) (E.send_server_hello s2).1) st1
          = Except.ok st2 ∧
        SM.read_exact (E.recv_bytes3 (E.send_server_hello s2).2) st2
          = Except.ok (d3, st3) ∧
        E.recv_client_auth (E.send_server_hello s2).2 d3 = Except.error e))

theorem padTrunc_length (n : Nat) (m : List Nat) : (padTrunc n m).length = n := by
  simp [padTrunc]
  omega

theorem padTrunc_self {n : Nat} {m : List Nat} (h : m.length = n) : padTrunc n m = m := by
  subst h
  simp [padTrunc]

theorem padTrunc_pair (a b : Nat) : padTrunc 2 [a, b] = [a, b] := rfl

theorem padTrunc_single (a : Nat) : padTrunc 1 [a] = [a] := rfl

theorem take_two {α : Type} (a b : α) (l : List α) : List.take 2 (a :: b :: l) = [a, b] := rfl

theorem drop_two {α : Type} (a b : α) (l : List α) : List.drop 2 (a :: b :: l) = l := rfl

theorem take_one {α : Type} (a : α) (l : List α) : List.take 1 (a :: l) = [a] := rfl

theorem drop_one {α : Type} (a : α) (l : List α) : List.drop 1 (a :: l) = l := rfl

theorem Buf_exact : StreamExact Buf := by
  intro n s d s2 h
  simp only [Buf] at h
  split at h
  · rename_i hle
    rw [Except.ok.injEq, Prod.mk.injEq] at h
    rcases h with ⟨h1, _⟩
    rw [← h1]
    simp [List.length_take]
    omega
  · exact absurd h (by simp)

theorem doSendF_inv {SM : StreamModel} {β : Type} {n : Nat}
    {fill : Except Nat (List Nat × β)} {st : SM.S} {tr : List Event}
    {k : β → SM.S → List Event → RunResult × List Event}
    {out : RunResult × List Event} (h : doSendF SM β n fill st tr k = out) :
    (¬ n ≤ 128 ∧ out = (RunResult.panicked, tr)) ∨
    (n ≤ 128 ∧ ∃ e, fill = Except.error e ∧
        out = (RunResult.fail (from_handshake_error e), tr ++ [Event.EErr e])) ∨
    (n ≤ 128 ∧ ∃ p e, fill = Except.ok p ∧
        SM.write_all (padTrunc n p.1) st = Except.error e ∧
        out = (RunResult.fail (from_io_error e), tr ++ [Event.WErr (padTrunc n p.1) e])) ∨
    (n ≤ 128 ∧ ∃ p st2, fill = Except.ok p ∧
        SM.write_all (padTrunc n p.1) st = Except.ok st2 ∧
        out = k p.2 st2 (tr ++ [Event.W (padTrunc n p.1)])) := by
  unfold doSendF at h
  by_cases hn : n ≤ 128
  · rw [if_pos hn] at h
    cases fill with
    | error e => exact Or.inr (Or.inl ⟨hn, e, rfl, h.symm⟩)
    | ok p =>
      dsimp only at h
      cases hw : SM.write_all (padTrunc n p.1) st with
      | error e =>
        rw [hw] at h
        exact Or.inr (Or.inr (Or.inl ⟨hn, p, e, rfl, hw, h.symm⟩))
      | ok st2 =>
        rw [hw] at h
        exact Or.inr (Or.inr (Or.inr ⟨hn, p, st2, rfl, hw, h.symm⟩))
  · rw [if_neg hn] at h
    exact Or.inl ⟨hn, h.symm⟩

theorem doRecvF_inv {SM : StreamModel} {β : Type} {n : Nat} {st : SM.S}
    {tr : List Event} {adv : List Nat → Except Nat β}
    {k : β → SM.S → List Event → RunResult × List Event}
    {out : RunResult × List Event} (h : doRecvF SM β n st tr adv k = out) :
    (¬ n ≤ 128 ∧ out = (RunResult.panicked, tr)) ∨
    (n ≤ 128 ∧ ∃ e, SM.read_exact n st = Except.error e ∧
        out = (RunResult.fail (from_io_error e), tr ++ [Event.RErr n e])) ∨
    (n ≤ 128 ∧ ∃ p e, SM.read_exact n st = Except.ok p ∧ adv p.1 = Except.error e ∧
        out = (RunResult.fail (from_handshake_error e),
               tr ++ [Event.R n p.1, Event.EErr e])) ∨
    (n ≤ 128 ∧ ∃ p b, SM.read_exact n st = Except.ok p ∧ adv p.1 = Except.ok b ∧
        out = k b p.2 (tr ++ [Event.R n p.1])) := by
  unfold doRecvF at h
  by_cases hn : n ≤ 128
  · rw [if_pos hn] at h
    cases hr : SM.read_exact n st with
    | error e =>
      rw [hr] at h
      exact Or.inr (Or.inl ⟨hn, e, rfl, h.symm⟩)
    | ok p =>
      rw [hr] at h
      dsimp only at h
      cases ha : adv p.1 with
      | error e =>
        rw [ha] at h
        exact Or.inr (Or.inr (Or.inl ⟨hn, p, e, rfl, ha, h.symm⟩))
      | ok b =>
        rw [ha] at h
        exact Or.inr (Or.inr (Or.inr ⟨hn, p, b, rfl, ha, h.symm⟩))
  · rw [if_neg hn] at h
    exact Or.inl ⟨hn, h.symm⟩

theorem doSendF_ok {SM : StreamModel} {β : Type} {n : Nat} {p : List Nat × β}
    {st st2 : SM.S} {tr : List Event}
    {k : β → SM.S → List Event → RunResult × List Event}
    (hn : n ≤ 128) (hw : SM.write_all (padTrunc n p.1) st = Except.ok st2) :
    doSendF SM β n (Except.ok p) st tr k = k p.2 st2 (tr ++ [Event.W (padTrunc n p.1)]) := by
  unfold doSendF
  rw [if_pos hn]
  dsimp only
  rw [hw]

theorem doRecvF_ok {SM : StreamModel} {β : Type} {n : Nat} {p : List Nat × SM.S}
    {b : β} {st : SM.S} {tr : List Event} {adv : List Nat → Except Nat β}
    {k : β → SM.S → List Event → RunResult × List Event}
    (hn : n ≤ 128) (hr : SM.read_exact n st = Except.ok p) (ha : adv p.1 = Except.ok b) :
    doRecvF SM β n st tr adv k = k b p.2 (tr ++ [Event.R n p.1]) := by
  unfold doRecvF
  rw [if_pos hn, hr]
  dsimp only
  rw [ha]

theorem doRecvF_readErr {SM : StreamModel} {β : Type} {n : Nat} {e : Nat}
    {st : SM.S} {tr : List Event} {adv : List Nat → Except Nat β}
    {k : β → SM.S → List Event → RunResult × List Event}
    (hn : n ≤ 128) (hr : SM.read_exact n st = Except.error e) :
    doRecvF SM β n st tr adv k
      = (RunResult.fail (from_io_error e), tr ++ [Event.RErr n e]) := by
  unfold doRecvF
  rw [if_pos hn, hr]

theorem doSendF_panic {SM : StreamModel} {β : Type} {n : Nat}
    {fill : Except Nat (List Nat × β)} {st : SM.S} {tr : List Event}
    {k : β → SM.S → List Event → RunResult × List Event} (hn : ¬ n ≤ 128) :
    doSendF SM β n fill st tr k = (RunResult.panicked, tr) := by
  unfold doSendF
  rw [if_neg hn]

theorem doRecvF_panic {SM : StreamModel} {β : Type} {n : Nat} {st : SM.S}
    {tr : List Event} {adv : List Nat → Except Nat β}
    {k : β → SM.S → List Event → RunResult × List Event} (hn : ¬ n ≤ 128) :
    doRecvF SM β n st tr adv k = (RunResult.panicked, tr) := by
  unfold doRecvF
  rw [if_neg hn]

theorem client_ok_elim {SM : StreamModel} {E : ClientEngine} {ni pk sk server_pk : Nat}
    {st : SM.S} {c : HandshakeComplete} {tr : List Event}
    (h : handshake_client SM E ni pk sk server_pk st = (RunResult.ok c, tr)) :
    ClientRoundsOk SM E ni pk sk server_pk st c tr := by
  unfold handshake_client at h
  rcases doSendF_inv h with ⟨_, h1⟩ | ⟨_, e, hfe, _⟩ | ⟨_, p, e, _, _, h1⟩ | ⟨_, p, st1, hfe, hw1, h1⟩
  · exact absurd h1 (by simp)
  · exact absurd hfe (by simp)
  · exact absurd h1 (by simp)
  · rw [Except.ok.injEq] at hfe
    subst hfe
    rcases doRecvF_inv h1.symm with ⟨_, h2⟩ | ⟨_, e, _, h2⟩ | ⟨_, p2, e, _, _, h2⟩ |
      ⟨_, p2, s3, hr2, hsh, h2⟩
    · exact absurd h2 (by simp)
    · exact absurd h2 (by simp)
    · exact absurd h2 (by simp)
    · rcases doSendF_inv h2.symm with ⟨_, h3⟩ | ⟨_, e, _, h3⟩ | ⟨_, p3, e, _, _, h3⟩ |
        ⟨_, p3, st3, hfa, hw3, h3⟩
      · exact absurd h3 (by simp)
      · exact absurd h3 (by simp)
      · exact absurd h3 (by simp)
      · rcases doRecvF_inv h3.symm with ⟨_, h4⟩ | ⟨_, e, _, h4⟩ | ⟨_, p4, e, _, _, h4⟩ |
          ⟨_, p4, s5, hr4, hacc, h4⟩
        · exact absurd h4 (by simp)
        · exact absurd h4 (by simp)
        · exact absurd h4 (by simp)
        · rw [Prod.mk.injEq, RunResult.ok.injEq] at h4
          refine ⟨st1, p2.1, p2.2, s3, p3, st3, p4.1, p4.2, s5,
            hw1, ?_, hsh, hfa, hw3, ?_, hacc, h4.1, ?_⟩
          · rw [hr2]
          · rw [hr4]
          · rw [h4.2]
            simp

theorem server_ok_elim {SM : StreamModel} {E : ServerEngine} {ni pk sk : Nat}
    {st : SM.S} {s : HandshakeComplete} {tr : List Event}
    (h : handshake_server SM E ni pk sk st = (RunResult.ok s, tr)) :
    ServerRoundsOk SM E ni pk sk st s tr := by
  unfold handshake_server at h
  rcases doRecvF_inv h with ⟨_, h1⟩ | ⟨_, e, _, h1⟩ | ⟨_, p1, e, _, _, h1⟩ |
    ⟨_, p1, s2, hr1, hh, h1⟩
  · exact absurd h1 (by simp)
  · exact absurd h1 (by simp)
  · exact absurd h1 (by simp)
  · rcases doSendF_inv h1.symm with ⟨_, h2⟩ | ⟨_, e, hfe, _⟩ | ⟨_, p2, e, hfe, _, h2⟩ |
      ⟨_, p2, st2, hfe, hw2, h2⟩
    · exact absurd h2 (by simp)
    · exact absurd hfe (by simp)
    · exact absurd h2 (by simp)
    · rw [Except.ok.injEq] at hfe
      subst hfe
      rcases doRecvF_inv h2.symm with ⟨_, h3⟩ | ⟨_, e, _, h3⟩ | ⟨_, p3, e, _, _, h3⟩ |
        ⟨_, p3, s4, hr3, ha, h3⟩
      · exact absurd h3 (by simp)
      · exact absurd h3 (by simp)
      · exact absurd h3 (by simp)
      · rcases doSendF_inv h3.symm with ⟨_, h4⟩ | ⟨_, e, hfe4, _⟩ | ⟨_, p4, e, hfe4, _, h4⟩ |
          ⟨_, p4, st4, hfe4, hw4, h4⟩
        · exact absurd h4 (by simp)
        · exact absurd hfe4 (by simp)
        · exact absurd h4 (by simp)
        · rw [Except.ok.injEq] at hfe4
          subst hfe4
          rw [Prod.mk.injEq, RunResult.ok.injEq] at h4
          refine ⟨p1.1, p1.2, s2, st2, p3.1, p3.2, s4, st4,
            ?_, hh, hw2, ?_, ha, hw4, h4.1, ?_⟩
          · rw [hr1]
          · rw [hr3]
          · rw [h4.2]
            simp

theorem paired_run_records {ni cpk csk spk ssk : Nat} {c s : HandshakeComplete}
    {tc ts : List Event} (h : paired_run ni cpk csk spk ssk c s tc ts) :
    c = ⟨ni, dh (ephOf csk) (ephOf ssk), cpk, spk, ephOf csk, ephOf ssk⟩ ∧
    s = ⟨ni, dh (ephOf ssk) (ephOf csk), spk, cpk, ephOf ssk, ephOf csk⟩ := by
  obtain ⟨hc, hs⟩ := h
  obtain ⟨st1, d2, st2, s3, p, st3, d4, st4, s5, hw1, hr2, hsh, hauth, hw3, hr4, hacc,
    hcomp, htr⟩ := client_ok_elim hc
  simp only [SpecClient, Buf, padTrunc_pair] at hw1 hr2 hsh hauth hw3 hr4 hacc hcomp htr
  rw [Except.ok.injEq] at hw1
  subst hw1
  rcases d2 with _ | ⟨t, _ | ⟨se, _ | ⟨x, rest⟩⟩⟩
  · simp at hsh
  · simp at hsh
  case cons.cons.cons => simp at hsh
  dsimp only at hsh
  split at hsh
  case isFalse => simp at hsh
  case isTrue ht =>
    rw [Except.ok.injEq] at hsh
    subst hsh
    dsimp only at hauth
    by_cases hspk : spk = 0
    · rw [if_pos hspk] at hauth
      simp at hauth
    rw [if_neg hspk] at hauth
    rw [Except.ok.injEq] at hauth
    subst hauth
    dsimp only at hw3 hr4 hacc htr
    simp only [padTrunc_pair] at hw3 htr
    subst htr
    simp only [writesOf, List.cons_append, List.nil_append, List.append_nil] at hs
    simp [handshake_server, doRecvF, doSendF, SpecServer, Buf, padTrunc_pair,
      padTrunc_single, take_two, drop_two, take_one, drop_one, Prod.mk.injEq] at hs
    obtain ⟨hs1, hs2⟩ := hs
    subst hs2
    simp only [writesOf, List.cons_append, List.nil_append, List.append_nil] at hr2
    simp only [take_two, drop_two, List.length_cons, List.length_nil] at hr2
    simp at hr2
    obtain ⟨⟨ht2, hse⟩, hst2⟩ := hr2
    subst hse
    subst hst2
    rw [Except.ok.injEq] at hw3
    subst hw3
    simp [take_one, drop_one] at hr4
    obtain ⟨hd4, hst4⟩ := hr4
    subst hd4
    dsimp only at hacc
    split at hacc
    · rw [Except.ok.injEq] at hacc
      subst hacc
      dsimp only at hcomp
      exact ⟨hcomp, hs1.symm⟩
    · simp at hacc

theorem failShape_rerr {err : Error} {tr : List Event} (tr0 : List Event) (n e : Nat)
    (hok : tr0.all isOkEv = true) (htr : tr = tr0 ++ [Event.RErr n e])
    (herr : err = from_io_error e) : FailShape err tr :=
  ⟨tr0, Event.RErr n e, htr, hok, Or.inl ⟨n, e, rfl, herr⟩⟩

theorem failShape_werr {err : Error} {tr : List Event} (tr0 : List Event)
    (d : List Nat) (e : Nat) (hok : tr0.all isOkEv = true)
    (htr : tr = tr0 ++ [Event.WErr d e]) (herr : err = from_io_error e) :
    FailShape err tr :=
  ⟨tr0, Event.WErr d e, htr, hok, Or.inr (Or.inl ⟨d, e, rfl, herr⟩)⟩

theorem failShape_eerr {err : Error} {tr : List Event} (tr0 : List Event) (e : Nat)
    (hok : tr0.all isOkEv = true) (htr : tr = tr0 ++ [Event.EErr e])
    (herr : err = from_handshake_error e) : FailShape err tr :=
  ⟨tr0, Event.EErr e, htr, hok, Or.inr (Or.inr ⟨e, rfl, herr⟩)⟩

theorem append_two_split {α : Type} {A : List α} {a b : α} {tr : List α}
    (h : tr = A ++ [a, b]) : tr = (A ++ [a]) ++ [b] := by
  rw [h]
  simp

/-- Claim C1: for every pair of long-term keypairs and a shared network
identifier, if a concurrent run of handshake_client and handshake_server
over a connected duplex transport both return Ok, the two HandshakeComplete
records satisfy all six equalities: equal net_id, equal shared_secret, and
the own/peer key fields swapped. -/
theorem client_server_symmetry (ni cpk csk spk ssk : Nat) (c s : HandshakeComplete)
    (tc ts : List Event) (h : paired_run ni cpk csk spk ssk c s tc ts) :
    c.net_id = s.net_id ∧ c.shared_secret = s.shared_secret ∧
    c.pk = s.peer_pk ∧ c.ephemeral_pk = s.peer_ephemeral_pk ∧
    c.peer_pk = s.pk ∧ c.peer_ephemeral_pk = s.ephemeral_pk := by
  obtain ⟨h1, h2⟩ := paired_run_records h
  subst h1
  subst h2
  refine ⟨rfl, ?_, rfl, rfl, rfl, rfl⟩
  simp [dh, Nat.mul_comm]

theorem client_server_symmetry_witness :
    paired_run 1 2 3 4 5 ⟨1, 77, 2, 4, 7, 11⟩ ⟨1, 77, 4, 2, 11, 7⟩
      [Event.W [24, 7], Event.R 2 [36, 11], Event.W [9, 2], Event.R 1 [234]]
      [Event.R 2 [24, 7], Event.W [36, 11], Event.R 2 [9, 2], Event.W [234]] ∧
    ((⟨1, 77, 2, 4, 7, 11⟩ : HandshakeComplete).net_id
        = (⟨1, 77, 4, 2, 11, 7⟩ : HandshakeComplete).net_id ∧
     (⟨1, 77, 2, 4, 7, 11⟩ : HandshakeComplete).shared_secret
        = (⟨1, 77, 4, 2, 11, 7⟩ : HandshakeComplete).shared_secret ∧
     (⟨1, 77, 2, 4, 7, 11⟩ : HandshakeComplete).pk
        = (⟨1, 77, 4, 2, 11, 7⟩ : HandshakeComplete).peer_pk ∧
     (⟨1, 77, 2, 4, 7, 11⟩ : HandshakeComplete).ephemeral_pk
        = (⟨1, 77, 4, 2, 11, 7⟩ : HandshakeComplete).peer_ephemeral_pk ∧
     (⟨1, 77, 2, 4, 7, 11⟩ : HandshakeComplete).peer_pk
        = (⟨1, 77, 4, 2, 11, 7⟩ : HandshakeComplete).pk ∧
     (⟨1, 77, 2, 4, 7, 11⟩ : HandshakeComplete).peer_ephemeral_pk
        = (⟨1, 77, 4, 2, 11, 7⟩ : HandshakeComplete).ephemeral_pk) :=
  ⟨⟨by decide, by decide⟩,
   client_server_symmetry 1 2 3 4 5 ⟨1, 77, 2, 4, 7, 11⟩ ⟨1, 77, 4, 2, 11, 7⟩
     [Event.W [24, 7], Event.R 2 [36, 11], Event.W [9, 2], Event.R 1 [234]]
     [Event.R 2 [24, 7], Event.W [36, 11], Event.R 2 [9, 2], Event.W [234]]
     ⟨by decide, by decide⟩⟩

/-- Claim C2: every successful handshake_client invocation performs exactly
four protocol rounds in the fixed order send hello / receive server hello /
send authentication (with the caller-supplied expected peer public key) /
receive server acceptance, then finalizes the terminal state into the
HandshakeComplete record; no round is skipped, repeated, or reordered. -/
theorem client_four_rounds (SM : StreamModel) (E : ClientEngine)
    (ni pk sk server_pk : Nat) (st : SM.S) (c : HandshakeComplete) (tr : List Event)
    (h : handshake_client SM E ni pk sk server_pk st = (RunResult.ok c, tr)) :
    ClientRoundsOk SM E ni pk sk server_pk st c tr :=
  client_ok_elim h

theorem client_four_rounds_witness :
    handshake_client Buf SpecClient 1 2 3 4 [36, 11, 234]
      = (RunResult.ok ⟨1, 77, 2, 4, 7, 11⟩,
         [Event.W [24, 7], Event.R 2 [36, 11], Event.W [9, 2], Event.R 1 [234]]) ∧
    ClientRoundsOk Buf SpecClient 1 2 3 4 [36, 11, 234] ⟨1, 77, 2, 4, 7, 11⟩
      [Event.W [24, 7], Event.R 2 [36, 11], Event.W [9, 2], Event.R 1 [234]] :=
  ⟨by decide,
   client_four_rounds Buf SpecClient 1 2 3 4 [36, 11, 234] ⟨1, 77, 2, 4, 7, 11⟩
     [Event.W [24, 7], Event.R 2 [36, 11], Event.W [9, 2], Event.R 1 [234]] (by decide)⟩

/-- Claim C3: every successful handshake_server invocation performs exactly
four protocol rounds in the fixed reversed order receive client hello / send
server hello / receive client authentication / send server acceptance, then
finalizes; the entry point takes no expected-peer public key parameter (its
arguments are only the stream, the network identifier and the caller's own
keypair), and under the spec-modelled engine the server's peer_pk field is
learnt from the authentication round's received bytes. -/
theorem server_four_rounds :
    (∀ (SM : StreamModel) (E : ServerEngine) (ni pk sk : Nat) (st : SM.S)
        (s : HandshakeComplete) (tr : List Event),
      handshake_server SM E ni pk sk st = (RunResult.ok s, tr) →
      ServerRoundsOk SM E ni pk sk st s tr) ∧
    (∀ (ni pk sk : Nat) (si : List Nat) (s : HandshakeComplete) (tr : List Event),
      handshake_server Buf SpecServer ni pk sk si = (RunResult.ok s, tr) →
      ∃ a b t cpk rest, si = a :: b :: t :: cpk :: rest ∧ s.peer_pk = cpk) := by
  constructor
  · intro SM E ni pk sk st s tr h
    exact server_ok_elim h
  · intro ni pk sk si s tr h
    obtain ⟨d1, st1, s2, st2, d3, st3, s4, st4, hr1, hh, hw2, hr3, ha, hw4, hcmp, htr⟩ :=
      server_ok_elim h
    simp only [SpecServer, Buf] at hr1 hh hw2 hr3 ha hcmp
    split at hr1
    case isFalse => simp at hr1
    case isTrue h2len =>
      rw [Except.ok.injEq, Prod.mk.injEq] at hr1
      obtain ⟨hd1, hst1⟩ := hr1
      rcases si with _ | ⟨a, _ | ⟨b, l⟩⟩
      · simp at h2len
      · simp at h2len
      rw [take_two] at hd1
      rw [drop_two] at hst1
      rw [Except.ok.injEq] at hw2
      subst hst1
      subst hw2
      split at hr3
      case isFalse => simp at hr3
      case isTrue h2len3 =>
        rw [Except.ok.injEq, Prod.mk.injEq] at hr3
        obtain ⟨hd3, hst3⟩ := hr3
        rcases l with _ | ⟨t, _ | ⟨q, l2⟩⟩
        · simp at h2len3
        · simp at h2len3
        rw [take_two] at hd3
        subst hd3
        dsimp only at ha
        split at ha
        case isFalse => simp at ha
        case isTrue hta =>
          rw [Except.ok.injEq] at ha
          subst ha
          dsimp only at hcmp
          subst hcmp
          exact ⟨a, b, t, q, l2, rfl, rfl⟩

theorem server_four_rounds_witness :
    (handshake_server Buf SpecServer 1 4 5 [24, 7, 9, 2]
      = (RunResult.ok ⟨1, 77, 4, 2, 11, 7⟩,
         [Event.R 2 [24, 7], Event.W [36, 11], Event.R 2 [9, 2], Event.W [234]])) ∧
    ServerRoundsOk Buf SpecServer 1 4 5 [24, 7, 9, 2] ⟨1, 77, 4, 2, 11, 7⟩
      [Event.R 2 [24, 7], Event.W [36, 11], Event.R 2 [9, 2], Event.W [234]] ∧
    (∃ a b t cpk rest, ([24, 7, 9, 2] : List Nat) = a :: b :: t :: cpk :: rest ∧
      (⟨1, 77, 4, 2, 11, 7⟩ : HandshakeComplete).peer_pk = cpk) :=
  ⟨by decide,
   server_four_rounds.1 Buf SpecServer 1 4 5 [24, 7, 9, 2] ⟨1, 77, 4, 2, 11, 7⟩
     [Event.R 2 [24, 7], Event.W [36, 11], Event.R 2 [9, 2], Event.W [234]] (by decide),
   server_four_rounds.2 1 4 5 [24, 7, 9, 2] ⟨1, 77, 4, 2, 11, 7⟩
     [Event.R 2 [24, 7], Event.W [36, 11], Event.R 2 [9, 2], Event.W [234]] (by decide)⟩

/-- Claim C9: with identical keypairs and network identifier on both sides,
any two successful paired runs yield byte-identical shared_secret and net_id
fields in the resulting records. -/
theorem paired_run_determinism (ni cpk csk spk ssk : Nat)
    (c s c' s' : HandshakeComplete) (tc ts tc' ts' : List Event)
    (h1 : paired_run ni cpk csk spk ssk c s tc ts)
    (h2 : paired_run ni cpk csk spk ssk c' s' tc' ts') :
    c.shared_secret = c'.shared_secret ∧ c.net_id = c'.net_id ∧
    s.shared_secret = s'.shared_secret ∧ s.net_id = s'.net_id := by
  obtain ⟨e1, e2⟩ := paired_run_records h1
  obtain ⟨e3, e4⟩ := paired_run_records h2
  subst e1
  subst e2
  subst e3
  subst e4
  exact ⟨rfl, rfl, rfl, rfl⟩

theorem paired_run_determinism_witness :
    paired_run 1 2 3 4 5 ⟨1, 77, 2, 4, 7, 11⟩ ⟨1, 77, 4, 2, 11, 7⟩
      [Event.W [24, 7], Event.R 2 [36, 11], Event.W [9, 2], Event.R 1 [234]]
      [Event.R 2 [24, 7], Event.W [36, 11], Event.R 2 [9, 2], Event.W [234]] ∧
    ((⟨1, 77, 2, 4, 7, 11⟩ : HandshakeComplete).shared_secret
        = (⟨1, 77, 2, 4, 7, 11⟩ : HandshakeComplete).shared_secret ∧
     (⟨1, 77, 2, 4, 7, 11⟩ : HandshakeComplete).net_id
        = (⟨1, 77, 2, 4, 7, 11⟩ : HandshakeComplete).net_id ∧
     (⟨1, 77, 4, 2, 11, 7⟩ : HandshakeComplete).shared_secret
        = (⟨1, 77, 4, 2, 11, 7⟩ : HandshakeComplete).shared_secret ∧
     (⟨1, 77, 4, 2, 11, 7⟩ : HandshakeComplete).net_id
        = (⟨1, 77, 4, 2, 11, 7⟩ : HandshakeComplete).net_id) :=
  ⟨⟨by decide, by decide⟩,
   paired_run_determinism 1 2 3 4 5 ⟨1, 77, 2, 4, 7, 11⟩ ⟨1, 77, 4, 2, 11, 7⟩
     ⟨1, 77, 2, 4, 7, 11⟩ ⟨1, 77, 4, 2, 11, 7⟩
     [Event.W [24, 7], Event.R 2 [36, 11], Event.W [9, 2], Event.R 1 [234]]
     [Event.R 2 [24, 7], Event.W [36, 11], Event.R 2 [9, 2], Event.W [234]]
     [Event.W [24, 7], Event.R 2 [36, 11], Event.W [9, 2], Event.R 1 [234]]
     [Event.R 2 [24, 7], Event.W [36, 11], Event.R 2 [9, 2], Event.W [234]]
     ⟨by decide, by decide⟩ ⟨by decide, by decide⟩⟩

/-- Claim C4: before every round each driver re-queries the current state
for the exact byte count, slices exactly that many bytes, performs exactly
that many bytes of I/O (write-all for sends, read-exact for receives under
the transport's byte-exact contract), and passes exactly that buffer to the
engine's advance function; no round reuses a previous round's frame size. -/
theorem round_buffer_sizing :
    (∀ (SM : StreamModel) (E : ClientEngine) (ni pk sk server_pk : Nat) (st : SM.S)
        (c : HandshakeComplete) (tr : List Event),
      StreamExact SM →
      handshake_client SM E ni pk sk server_pk st = (RunResult.ok c, tr) →
      ClientSized E ni pk sk server_pk c tr) ∧
    (∀ (SM : StreamModel) (E : ServerEngine) (ni pk sk : Nat) (st : SM.S)
        (s : HandshakeComplete) (tr : List Event),
      StreamExact SM →
      handshake_server SM E ni pk sk st = (RunResult.ok s, tr) →
      ServerSized E ni pk sk s tr) := by
  constructor
  · intro SM E ni pk sk server_pk st c tr hex h
    obtain ⟨st1, d2, st2, s3, p, st3, d4, st4, s5, hw1, hr2, hsh, hauth, hw3, hr4, hacc,
      hcomp, htr⟩ := client_ok_elim h
    exact ⟨d2, s3, p, d4, s5, htr, padTrunc_length _ _, hex _ _ _ _ hr2,
      padTrunc_length _ _, hex _ _ _ _ hr4, hsh, hauth, hacc, hcomp⟩
  · intro SM E ni pk sk st s tr hex h
    obtain ⟨d1, st1, s2, st2, d3, st3, s4, st4, hr1, hh, hw2, hr3, ha, hw4, hcmp, htr⟩ :=
      server_ok_elim h
    exact ⟨d1, s2, d3, s4, htr, hex _ _ _ _ hr1, padTrunc_length _ _,
      hex _ _ _ _ hr3, padTrunc_length _ _, hh, ha, hcmp⟩

theorem round_buffer_sizing_witness :
    StreamExact Buf ∧
    handshake_client Buf SpecClient 1 2 3 4 [36, 11, 234]
      = (RunResult.ok ⟨1, 77, 2, 4, 7, 11⟩,
         [Event.W [24, 7], Event.R 2 [36, 11], Event.W [9, 2], Event.R 1 [234]]) ∧
    ClientSized SpecClient 1 2 3 4 ⟨1, 77, 2, 4, 7, 11⟩
      [Event.W [24, 7], Event.R 2 [36, 11], Event.W [9, 2], Event.R 1 [234]] ∧
    handshake_server Buf SpecServer 1 4 5 [24, 7, 9, 2]
      = (RunResult.ok ⟨1, 77, 4, 2, 11, 7⟩,
         [Event.R 2 [24, 7], Event.W [36, 11], Event.R 2 [9, 2], Event.W [234]]) ∧
    ServerSized SpecServer 1 4 5 ⟨1, 77, 4, 2, 11, 7⟩
      [Event.R 2 [24, 7], Event.W [36, 11], Event.R 2 [9, 2], Event.W [234]] :=
  ⟨Buf_exact, by decide,
   round_buffer_sizing.1 Buf SpecClient 1 2 3 4 [36, 11, 234] ⟨1, 77, 2, 4, 7, 11⟩
     [Event.W [24, 7], Event.R 2 [36, 11], Event.W [9, 2], Event.R 1 [234]]
     Buf_exact (by decide),
   by decide,
   round_buffer_sizing.2 Buf SpecServer 1 4 5 [24, 7, 9, 2] ⟨1, 77, 4, 2, 11, 7⟩
     [Event.R 2 [24, 7], Event.W [36, 11], Event.R 2 [9, 2], Event.W [234]]
     Buf_exact (by decide)⟩

/-- Claim C6: finalization is infallible: whenever all four rounds of either
driver complete without error, the terminal state is converted by the total
function complete and the driver returns Ok of that record, with no further
fallible step after the last round. -/
theorem finalization_infallible :
    (∀ (SM : StreamModel) (E : ClientEngine) (ni pk sk server_pk : Nat)
        (st st1 st2 st3 st4 : SM.S) (d2 d4 : List Nat) (s3 : E.SC3)
        (p : List Nat × E.SC4) (s5 : E.SC5),
      E.send_bytes1 (E.new_client ni pk sk) ≤ 128 →
      SM.write_all (padTrunc (E.send_bytes1 (E.new_client ni pk sk))
          (E.send_client_hello (E.new_client ni pk sk)).1) st = Except.ok st1 →
      E.recv_bytes2 (E.send_client_hello (E.new_client ni pk sk)).2 ≤ 128 →
      SM.read_exact (E.recv_bytes2 (E.send_client_hello (E.new_client ni pk sk)).2) st1
        = Except.ok (d2, st2) →
      E.recv_server_hello (E.send_client_hello (E.new_client ni pk sk)).2 d2
        = Except.ok s3 →
      E.send_bytes3 s3 ≤ 128 →
      E.send_client_auth s3 server_pk = Except.ok p →
      SM.write_all (padTrunc (E.send_bytes3 s3) p.1) st2 = Except.ok st3 →
      E.recv_bytes4 p.2 ≤ 128 →
      SM.read_exact (E.recv_bytes4 p.2) st3 = Except.ok (d4, st4) →
      E.recv_server_accept p.2 d4 = Except.ok s5 →
      handshake_client SM E ni pk sk server_pk st
        = (RunResult.ok (E.complete s5),
           [Event.W (padTrunc (E.send_bytes1 (E.new_client ni pk sk))
              (E.send_client_hello (E.new_client ni pk sk)).1),
            Event.R (E.recv_bytes2 (E.send_client_hello (E.new_client ni pk sk)).2) d2,
            Event.W (padTrunc (E.send_bytes3 s3) p.1),
            Event.R (E.recv_bytes4 p.2) d4])) ∧
    (∀ (SM : StreamModel) (E : ServerEngine) (ni pk sk : Nat)
        (st st1 st2 st3 st4 : SM.S) (d1 d3 : List Nat) (s2 : E.SS2) (s4 : E.SS4),
      E.recv_bytes1 (E.new_server ni pk sk) ≤ 128 →
      SM.read_exact (E.recv_bytes1 (E.new_server ni pk sk)) st = Except.ok (d1, st1) →
      E.recv_client_hello (E.new_server ni pk sk) d1 = Except.ok s2 →
      E.send_bytes2 s2 ≤ 128 →
      SM.write_all (padTrunc (E.send_bytes2 s2) (E.send_server_hello s2).1) st1
        = Except.ok st2 →
      E.recv_bytes3 (E.send_server_hello s2).2 ≤ 128 →
      SM.read_exact (E.recv_bytes3 (E.send_server_hello s2).2) st2 = Except.ok (d3, st3) →
      E.recv_client_auth (E.send_server_hello s2).2 d3 = Except.ok s4 →
      E.send_bytes4 s4 ≤ 128 →
      SM.write_all (padTrunc (E.send_bytes4 s4) (E.send_server_accept s4).1) st3
        = Except.ok st4 →
      handshake_server SM E ni pk sk st
        = (RunResult.ok (E.complete (E.send_server_accept s4).2),
           [Event.R (E.recv_bytes1 (E.new_server ni pk sk)) d1,
            Event.W (padTrunc (E.send_bytes2 s2) (E.send_server_hello s2).1),
            Event.R (E.recv_bytes3 (E.send_server_hello s2).2) d3,
            Event.W (padTrunc (E.send_bytes4 s4) (E.send_server_accept s4).1)])) := by
  constructor
  · intro SM E ni pk sk server_pk st st1 st2 st3 st4 d2 d4 s3 p s5
      hb1 hw1 hb2 hr2 hsh hb3 hauth hw3 hb4 hr4 hacc
    unfold handshake_client
    rw [doSendF_ok hb1 hw1]
    try simp only []
    rw [doRecvF_ok hb2 hr2 hsh]
    try simp only []
    rw [hauth, doSendF_ok hb3 hw3]
    try simp only []
    rw [doRecvF_ok hb4 hr4 hacc]
    simp
  · intro SM E ni pk sk st st1 st2 st3 st4 d1 d3 s2 s4
      hb1 hr1 hh hb2 hw2 hb3 hr3 ha hb4 hw4
    unfold handshake_server
    rw [doRecvF_ok hb1 hr1 hh]
    try simp only []
    rw [doSendF_ok hb2 hw2]
    try simp only []
    rw [doRecvF_ok hb3 hr3 ha]
    try simp only []
    rw [doSendF_ok hb4 hw4]
    simp

theorem finalization_infallible_witness :
    handshake_client Buf SpecClient 1 2 3 4 [36, 11, 234]
      = (RunResult.ok (SpecClient.complete ⟨1, 2, 3, 7, 11, 4, 77⟩),
         [Event.W (padTrunc (SpecClient.send_bytes1 (SpecClient.new_client 1 2 3))
            (SpecClient.send_client_hello (SpecClient.new_client 1 2 3)).1),
          Event.R (SpecClient.recv_bytes2
            (SpecClient.send_client_hello (SpecClient.new_client 1 2 3)).2) [36, 11],
          Event.W (padTrunc (SpecClient.send_bytes3 ⟨1, 2, 3, 7, 11⟩)
            ([9, 2], (⟨1, 2, 3, 7, 11, 4, 77⟩ : CPostAuth)).1),
          Event.R (SpecClient.recv_bytes4
            (([9, 2], (⟨1, 2, 3, 7, 11, 4, 77⟩ : CPostAuth)) : List Nat × CPostAuth).2)
            [234]]) ∧
    handshake_server Buf SpecServer 1 4 5 [24, 7, 9, 2]
      = (RunResult.ok (SpecServer.complete
           (SpecServer.send_server_accept ⟨1, 4, 5, 11, 7, 2, 77⟩).2),
         [Event.R (SpecServer.recv_bytes1 (SpecServer.new_server 1 4 5)) [24, 7],
          Event.W (padTrunc (SpecServer.send_bytes2 ⟨1, 4, 5, 11, 7⟩)
            (SpecServer.send_server_hello ⟨1, 4, 5, 11, 7⟩).1),
          Event.R (SpecServer.recv_bytes3
            (SpecServer.send_server_hello ⟨1, 4, 5, 11, 7⟩).2) [9, 2],
          Event.W (padTrunc (SpecServer.send_bytes4 ⟨1, 4, 5, 11, 7, 2, 77⟩)
            (SpecServer.send_server_accept ⟨1, 4, 5, 11, 7, 2, 77⟩).1)]) :=
  ⟨finalization_infallible.1 Buf SpecClient 1 2 3 4 [36, 11, 234] [36, 11, 234] [234] [234]
     [] [36, 11] [234] ⟨1, 2, 3, 7, 11⟩ ([9, 2], ⟨1, 2, 3, 7, 11, 4, 77⟩) ⟨1, 2, 3, 7, 11, 4, 77⟩
     (by decide) rfl (by decide) rfl rfl (by decide) rfl rfl (by decide) rfl rfl,
   finalization_infallible.2 Buf SpecServer 1 4 5 [24, 7, 9, 2] [9, 2] [9, 2] [] []
     [24, 7] [9, 2] ⟨1, 4, 5, 11, 7⟩ ⟨1, 4, 5, 11, 7, 2, 77⟩
     (by decide) rfl rfl (by decide) rfl (by decide) rfl rfl (by decide) rfl⟩

/-- Claim C5: every failure either driver returns has exactly two possible
kinds: an I/O failure wrapped through from_io_error into the Io variant or
an engine rejection wrapped through from_handshake_error into the Handshake
variant; each origin maps to its own variant and never the other, and the
failure ends the run immediately - the trace is completed operations
followed by the single failing one, with nothing after it. -/
theorem error_two_kinds :
    (∀ (SM : StreamModel) (E : ClientEngine) (ni pk sk server_pk : Nat) (st : SM.S)
        (err : Error) (tr : List Event),
      handshake_client SM E ni pk sk server_pk st = (RunResult.fail err, tr) →
      FailShape err tr) ∧
    (∀ (SM : StreamModel) (E : ServerEngine) (ni pk sk : Nat) (st : SM.S)
        (err : Error) (tr : List Event),
      handshake_server SM E ni pk sk st = (RunResult.fail err, tr) →
      FailShape err tr) ∧
    (∀ e, from_io_error e = Error.Io e) ∧
    (∀ e, from_handshake_error e = Error.Handshake e) ∧
    (∀ e e2, from_io_error e ≠ from_handshake_error e2) := by
  refine ⟨?_, ?_, fun e => rfl, fun e => rfl, ?_⟩
  · intro SM E ni pk sk server_pk st err tr h
    unfold handshake_client at h
    rcases doSendF_inv h with ⟨_, hout⟩ | ⟨_, e, hfe, _⟩ | ⟨_, p, e, _, _, hout⟩ |
      ⟨_, p, st1, _, _, hout⟩
    · simp at hout
    · simp at hfe
    · rw [Prod.mk.injEq, RunResult.fail.injEq] at hout
      exact failShape_werr _ _ _ (by simp [isOkEv]) hout.2 hout.1
    · rcases doRecvF_inv hout.symm with ⟨_, hout2⟩ | ⟨_, e, _, hout2⟩ |
        ⟨_, p2, e, _, _, hout2⟩ | ⟨_, p2, s3, _, _, hout2⟩
      · simp at hout2
      · rw [Prod.mk.injEq, RunResult.fail.injEq] at hout2
        exact failShape_rerr _ _ _ (by simp [isOkEv]) hout2.2 hout2.1
      · rw [Prod.mk.injEq, RunResult.fail.injEq] at hout2
        exact failShape_eerr _ _ (by simp [isOkEv]) (append_two_split hout2.2) hout2.1
      · rcases doSendF_inv hout2.symm with ⟨_, hout3⟩ | ⟨_, e, hfa, hout3⟩ |
          ⟨_, p3, e, _, _, hout3⟩ | ⟨_, p3, st3, _, _, hout3⟩
        · simp at hout3
        · rw [Prod.mk.injEq, RunResult.fail.injEq] at hout3
          exact failShape_eerr _ _ (by simp [isOkEv]) hout3.2 hout3.1
        · rw [Prod.mk.injEq, RunResult.fail.injEq] at hout3
          exact failShape_werr _ _ _ (by simp [isOkEv]) hout3.2 hout3.1
        · rcases doRecvF_inv hout3.symm with ⟨_, hout4⟩ | ⟨_, e, _, hout4⟩ |
            ⟨_, p4, e, _, _, hout4⟩ | ⟨_, p4, s5, _, _, hout4⟩
          · simp at hout4
          · rw [Prod.mk.injEq, RunResult.fail.injEq] at hout4
            exact failShape_rerr _ _ _ (by simp [isOkEv]) hout4.2 hout4.1
          · rw [Prod.mk.injEq, RunResult.fail.injEq] at hout4
            exact failShape_eerr _ _ (by simp [isOkEv]) (append_two_split hout4.2) hout4.1
          · simp at hout4
  · intro SM E ni pk sk st err tr h
    unfold handshake_server at h
    rcases doRecvF_inv h with ⟨_, hout⟩ | ⟨_, e, _, hout⟩ | ⟨_, p1, e, _, _, hout⟩ |
      ⟨_, p1, s2, _, _, hout⟩
    · simp at hout
    · rw [Prod.mk.injEq, RunResult.fail.injEq] at hout
      exact failShape_rerr _ _ _ (by simp [isOkEv]) hout.2 hout.1
    · rw [Prod.mk.injEq, RunResult.fail.injEq] at hout
      exact failShape_eerr _ _ (by simp [isOkEv]) (append_two_split hout.2) hout.1
    · rcases doSendF_inv hout.symm with ⟨_, hout2⟩ | ⟨_, e, hfe, _⟩ |
        ⟨_, p2, e, _, _, hout2⟩ | ⟨_, p2, st2, _, _, hout2⟩
      · simp at hout2
      · simp at hfe
      · rw [Prod.mk.injEq, RunResult.fail.injEq] at hout2
        exact failShape_werr _ _ _ (by simp [isOkEv]) hout2.2 hout2.1
      · rcases doRecvF_inv hout2.symm with ⟨_, hout3⟩ | ⟨_, e, _, hout3⟩ |
          ⟨_, p3, e, _, _, hout3⟩ | ⟨_, p3, s4, _, _, hout3⟩
        · simp at hout3
        · rw [Prod.mk.injEq, RunResult.fail.injEq] at hout3
          exact failShape_rerr _ _ _ (by simp [isOkEv]) hout3.2 hout3.1
        · rw [Prod.mk.injEq, RunResult.fail.injEq] at hout3
          exact failShape_eerr _ _ (by simp [isOkEv]) (append_two_split hout3.2) hout3.1
        · rcases doSendF_inv hout3.symm with ⟨_, hout4⟩ | ⟨_, e, hfe4, _⟩ |
            ⟨_, p4, e, _, _, hout4⟩ | ⟨_, p4, st4, _, _, hout4⟩
          · simp at hout4
          · simp at hfe4
          · rw [Prod.mk.injEq, RunResult.fail.injEq] at hout4
            exact failShape_werr _ _ _ (by simp [isOkEv]) hout4.2 hout4.1
          · simp at hout4
  · intro e e2 hne
    simp [from_io_error, from_handshake_error] at hne

theorem error_two_kinds_witness :
    handshake_client Buf SpecClient 1 2 3 4 []
      = (RunResult.fail (from_io_error 0), [Event.W [24, 7], Event.RErr 2 0]) ∧
    FailShape (from_io_error 0) [Event.W [24, 7], Event.RErr 2 0] ∧
    handshake_server Buf SpecServer 1 4 5 [0, 0]
      = (RunResult.fail (from_handshake_error 11),
         [Event.R 2 [0, 0], Event.EErr 11]) ∧
    FailShape (from_handshake_error 11) [Event.R 2 [0, 0], Event.EErr 11] :=
  ⟨by decide,
   error_two_kinds.1 Buf SpecClient 1 2 3 4 [] (from_io_error 0)
     [Event.W [24, 7], Event.RErr 2 0] (by decide),
   by decide,
   error_two_kinds.2.1 Buf SpecServer 1 4 5 [0, 0] (from_handshake_error 11)
     [Event.R 2 [0, 0], Event.EErr 11] (by decide)⟩

/-- Claim C7 counterexample: the claim that no send round can fail for a
non-transport reason is false: at a concrete run the client's third round -
the authentication send - fails through the fallible send_client_auth (the
source applies the ? operator to it at line 40), producing a Handshake error
with no transport failure involved. -/
theorem client_auth_send_can_fail :
    handshake_client Buf SpecClient 1 2 3 0 [36, 11, 234]
      = (RunResult.fail (from_handshake_error 3),
         [Event.W [24, 7], Event.R 2 [36, 11], Event.EErr 3]) ∧
    SpecClient.send_client_auth ⟨1, 2, 3, 7, 11⟩ 0 = Except.error 3 ∧
    ∀ e, from_handshake_error 3 ≠ from_io_error e := by
  refine ⟨by decide, rfl, ?_⟩
  intro e h
  simp [from_handshake_error, from_io_error] at h

/-- Claim C7 (amended): the hello and accept send advances
(send_client_hello, send_server_hello, send_server_accept) are infallible,
so no server send round can fail for a non-transport reason - every server
Handshake error originates in one of the two receive advances; but the
client's authentication send round calls the fallible send_client_auth, so
a client Handshake error originates in recv_server_hello, send_client_auth,
or recv_server_accept. -/
theorem send_round_fallibility :
    (∀ (SM : StreamModel) (E : ServerEngine) (ni pk sk : Nat) (st : SM.S)
        (e : Nat) (tr : List Event),
      handshake_server SM E ni pk sk st = (RunResult.fail (from_handshake_error e), tr) →
      ServerHsOrigin SM E ni pk sk st e) ∧
    (∀ (SM : StreamModel) (E : ClientEngine) (ni pk sk server_pk : Nat) (st : SM.S)
        (e : Nat) (tr : List Event),
      handshake_client SM E ni pk sk server_pk st
        = (RunResult.fail (from_handshake_error e), tr) →
      ClientHsOrigin SM E ni pk sk server_pk st e) := by
  constructor
  · intro SM E ni pk sk st e tr h
    unfold handshake_server at h
    rcases doRecvF_inv h with ⟨_, hout⟩ | ⟨_, e2, _, hout⟩ | ⟨_, p1, e2, hr1, ha1, hout⟩ |
      ⟨_, p1, s2, hr1, hh, hout⟩
    · simp at hout
    · simp [from_io_error, from_handshake_error] at hout
    · simp only [from_handshake_error, Prod.mk.injEq, RunResult.fail.injEq,
        Error.Handshake.injEq] at hout
      obtain ⟨he, _⟩ := hout
      subst he
      exact ⟨p1.1, p1.2, by rw [Prod.mk.eta]; exact hr1, Or.inl ha1⟩
    · rcases doSendF_inv hout.symm with ⟨_, hout2⟩ | ⟨_, e2, hfe, _⟩ |
        ⟨_, p2, e2, _, _, hout2⟩ | ⟨_, p2, st2, hfe, hw2, hout2⟩
      · simp at hout2
      · simp at hfe
      · simp [from_io_error, from_handshake_error] at hout2
      · rw [Except.ok.injEq] at hfe
        subst hfe
        rcases doRecvF_inv hout2.symm with ⟨_, hout3⟩ | ⟨_, e2, _, hout3⟩ |
          ⟨_, p3, e2, hr3, ha3, hout3⟩ | ⟨_, p3, s4, hr3, ha3, hout3⟩
        · simp at hout3
        · simp [from_io_error, from_handshake_error] at hout3
        · simp only [from_handshake_error, Prod.mk.injEq, RunResult.fail.injEq,
            Error.Handshake.injEq] at hout3
          obtain ⟨he, _⟩ := hout3
          subst he
          exact ⟨p1.1, p1.2, by rw [Prod.mk.eta]; exact hr1,
            Or.inr ⟨s2, st2, p3.1, p3.2, hh, hw2,
              by rw [Prod.mk.eta]; exact hr3, ha3⟩⟩
        · rcases doSendF_inv hout3.symm with ⟨_, hout4⟩ | ⟨_, e2, hfe4, _⟩ |
            ⟨_, p4, e2, _, _, hout4⟩ | ⟨_, p4, st4, _, _, hout4⟩
          · simp at hout4
          · simp at hfe4
          · simp [from_io_error, from_handshake_error] at hout4
          · simp at hout4
  · intro SM E ni pk sk server_pk st e tr h
    unfold handshake_client at h
    rcases doSendF_inv h with ⟨_, hout⟩ | ⟨_, e2, hfe, _⟩ | ⟨_, p, e2, _, _, hout⟩ |
      ⟨_, p, st1, hfe, hw1, hout⟩
    · simp at hout
    · simp at hfe
    · simp [from_io_error, from_handshake_error] at hout
    · rw [Except.ok.injEq] at hfe
      subst hfe
      rcases doRecvF_inv hout.symm with ⟨_, hout2⟩ | ⟨_, e2, _, hout2⟩ |
        ⟨_, p2, e2, hr2, hsh2, hout2⟩ | ⟨_, p2, s3, hr2, hsh, hout2⟩
      · simp at hout2
      · simp [from_io_error, from_handshake_error] at hout2
      · simp only [from_handshake_error, Prod.mk.injEq, RunResult.fail.injEq,
          Error.Handshake.injEq] at hout2
        obtain ⟨he, _⟩ := hout2
        subst he
        exact ⟨st1, p2.1, p2.2, hw1, by rw [Prod.mk.eta]; exact hr2, Or.inl hsh2⟩
      · rcases doSendF_inv hout2.symm with ⟨_, hout3⟩ | ⟨_, e2, hfa, hout3⟩ |
          ⟨_, p3, e2, _, _, hout3⟩ | ⟨_, p3, st3, hfa, hw3, hout3⟩
        · simp at hout3
        · simp only [from_handshake_error, Prod.mk.injEq, RunResult.fail.injEq,
            Error.Handshake.injEq] at hout3
          obtain ⟨he, _⟩ := hout3
          subst he
          exact ⟨st1, p2.1, p2.2, hw1, by rw [Prod.mk.eta]; exact hr2,
            Or.inr ⟨s3, hsh, Or.inl hfa⟩⟩
        · simp [from_io_error, from_handshake_error] at hout3
        · rcases doRecvF_inv hout3.symm with ⟨_, hout4⟩ | ⟨_, e2, _, hout4⟩ |
            ⟨_, p4, e2, hr4, hacc4, hout4⟩ | ⟨_, p4, s5, _, _, hout4⟩
          · simp at hout4
          · simp [from_io_error, from_handshake_error] at hout4
          · simp only [from_handshake_error, Prod.mk.injEq, RunResult.fail.injEq,
              Error.Handshake.injEq] at hout4
            obtain ⟨he, _⟩ := hout4
            subst he
            exact ⟨st1, p2.1, p2.2, hw1, by rw [Prod.mk.eta]; exact hr2,
              Or.inr ⟨s3, hsh, Or.inr ⟨p3, st3, p4.1, p4.2, hfa, hw3,
                by rw [Prod.mk.eta]; exact hr4, hacc4⟩⟩⟩
          · simp at hout4

theorem send_round_fallibility_witness :
    handshake_server Buf SpecServer 1 4 5 [0, 0]
      = (RunResult.fail (from_handshake_error 11), [Event.R 2 [0, 0], Event.EErr 11]) ∧
    ServerHsOrigin Buf SpecServer 1 4 5 [0, 0] 11 ∧
    handshake_client Buf SpecClient 1 2 3 0 [36, 11, 234]
      = (RunResult.fail (from_handshake_error 3),
         [Event.W [24, 7], Event.R 2 [36, 11], Event.EErr 3]) ∧
    ClientHsOrigin Buf SpecClient 1 2 3 0 [36, 11, 234] 3 :=
  ⟨by decide,
   send_round_fallibility.1 Buf SpecServer 1 4 5 [0, 0] 11
     [Event.R 2 [0, 0], Event.EErr 11] (by decide),
   by decide,
   send_round_fallibility.2 Buf SpecClient 1 2 3 0 [36, 11, 234] 3
     [Event.W [24, 7], Event.R 2 [36, 11], Event.EErr 3] (by decide)⟩

/-- Claim C8: if the stream ends before a receive round has obtained the
number of bytes the state machine demands (fewer bytes remain buffered than
recv_bytes reports, at any of the four receive rounds), the driver returns a
transport-kind error (the Io wrap of the UnexpectedEof code), the run is a
total function (no panic, given in-bound slice sizes), and no
HandshakeComplete record is produced - the trace stops at the failed read. -/
theorem truncation_transport_error :
    (∀ (E : ClientEngine) (ni pk sk server_pk : Nat) (ci : List Nat),
      E.send_bytes1 (E.new_client ni pk sk) ≤ 128 →
      E.recv_bytes2 (E.send_client_hello (E.new_client ni pk sk)).2 ≤ 128 →
      ci.length < E.recv_bytes2 (E.send_client_hello (E.new_client ni pk sk)).2 →
      handshake_client Buf E ni pk sk server_pk ci
        = (RunResult.fail (from_io_error 0),
           [Event.W (padTrunc (E.send_bytes1 (E.new_client ni pk sk))
              (E.send_client_hello (E.new_client ni pk sk)).1),
            Event.RErr (E.recv_bytes2 (E.send_client_hello (E.new_client ni pk sk)).2) 0])) ∧
    (∀ (E : ClientEngine) (ni pk sk server_pk : Nat) (ci : List Nat) (s3 : E.SC3)
        (p : List Nat × E.SC4),
      E.send_bytes1 (E.new_client ni pk sk) ≤ 128 →
      E.recv_bytes2 (E.send_client_hello (E.new_client ni pk sk)).2 ≤ 128 →
      E.recv_bytes2 (E.send_client_hello (E.new_client ni pk sk)).2 ≤ ci.length →
      E.recv_server_hello (E.send_client_hello (E.new_client ni pk sk)).2
        (ci.take (E.recv_bytes2 (E.send_client_hello (E.new_client ni pk sk)).2))
        = Except.ok s3 →
      E.send_bytes3 s3 ≤ 128 →
      E.send_client_auth s3 server_pk = Except.ok p →
      E.recv_bytes4 p.2 ≤ 128 →
      ci.length - E.recv_bytes2 (E.send_client_hello (E.new_client ni pk sk)).2
        < E.recv_bytes4 p.2 →
      handshake_client Buf E ni pk sk server_pk ci
        = (RunResult.fail (from_io_error 0),
           [Event.W (padTrunc (E.send_bytes1 (E.new_client ni pk sk))
              (E.send_client_hello (E.new_client ni pk sk)).1),
            Event.R (E.recv_bytes2 (E.send_client_hello (E.new_client ni pk sk)).2)
              (ci.take (E.recv_bytes2 (E.send_client_hello (E.new_client ni pk sk)).2)),
            Event.W (padTrunc (E.send_bytes3 s3) p.1),
            Event.RErr (E.recv_bytes4 p.2) 0])) ∧
    (∀ (E : ServerEngine) (ni pk sk : Nat) (si : List Nat),
      E.recv_bytes1 (E.new_server ni pk sk) ≤ 128 →
      si.length < E.recv_bytes1 (E.new_server ni pk sk) →
      handshake_server Buf E ni pk sk si
        = (RunResult.fail (from_io_error 0),
           [Event.RErr (E.recv_bytes1 (E.new_server ni pk sk)) 0])) ∧
    (∀ (E : ServerEngine) (ni pk sk : Nat) (si : List Nat) (s2 : E.SS2),
      E.recv_bytes1 (E.new_server ni pk sk) ≤ 128 →
      E.recv_bytes1 (E.new_server ni pk sk) ≤ si.length →
      E.recv_client_hello (E.new_server ni pk sk)
        (si.take (E.recv_bytes1 (E.new_server ni pk sk))) = Except.ok s2 →
      E.send_bytes2 s2 ≤ 128 →
      E.recv_bytes3 (E.send_server_hello s2).2 ≤ 128 →
      si.length - E.recv_bytes1 (E.new_server ni pk sk)
        < E.recv_bytes3 (E.send_server_hello s2).2 →
      handshake_server Buf E ni pk sk si
        = (RunResult.fail (from_io_error 0),
           [Event.R (E.recv_bytes1 (E.new_server ni pk sk))
              (si.take (E.recv_bytes1 (E.new_server ni pk sk))),
            Event.W (padTrunc (E.send_bytes2 s2) (E.send_server_hello s2).1),
            Event.RErr (E.recv_bytes3 (E.send_server_hello s2).2) 0])) := by
  refine ⟨?_, ?_, ?_, ?_⟩
  · intro E ni pk sk server_pk ci hb1 hb2 hlen
    unfold handshake_client
    rw [doSendF_ok hb1 (rfl :
      Buf.write_all (padTrunc (E.send_bytes1 (E.new_client ni pk sk))
        (E.send_client_hello (E.new_client ni pk sk)).1) ci = Except.ok ci)]
    try simp only []
    rw [doRecvF_readErr hb2 (show Buf.read_exact
        (E.recv_bytes2 (E.send_client_hello (E.new_client ni pk sk)).2) ci
        = Except.error 0 by simp [Buf]; omega)]
    simp
  · intro E ni pk sk server_pk ci s3 p hb1 hb2 hlen hsh hb3 hauth hb4 hlen4
    unfold handshake_client
    rw [doSendF_ok hb1 (rfl :
      Buf.write_all (padTrunc (E.send_bytes1 (E.new_client ni pk sk))
        (E.send_client_hello (E.new_client ni pk sk)).1) ci = Except.ok ci)]
    try simp only []
    rw [doRecvF_ok hb2 (show Buf.read_exact
        (E.recv_bytes2 (E.send_client_hello (E.new_client ni pk sk)).2) ci
        = Except.ok (ci.take (E.recv_bytes2 (E.send_client_hello
            (E.new_client ni pk sk)).2),
          ci.drop (E.recv_bytes2 (E.send_client_hello (E.new_client ni pk sk)).2))
        by simp [Buf, hlen]) hsh]
    try simp only []
    rw [hauth, doSendF_ok hb3 (rfl : Buf.write_all (padTrunc (E.send_bytes3 s3) p.1)
      (ci.drop (E.recv_bytes2 (E.send_client_hello (E.new_client ni pk sk)).2))
      = Except.ok (ci.drop (E.recv_bytes2 (E.send_client_hello
          (E.new_client ni pk sk)).2)))]
    try simp only []
    rw [doRecvF_readErr hb4 (show Buf.read_exact (E.recv_bytes4 p.2)
        (ci.drop (E.recv_bytes2 (E.send_client_hello (E.new_client ni pk sk)).2))
        = Except.error 0 by simp [Buf]; omega)]
    simp
  · intro E ni pk sk si hb1 hlen
    unfold handshake_server
    rw [doRecvF_readErr hb1 (show Buf.read_exact
        (E.recv_bytes1 (E.new_server ni pk sk)) si = Except.error 0
        by simp [Buf]; omega)]
    simp
  · intro E ni pk sk si s2 hb1 hlen hh hb2 hb3 hlen3
    unfold handshake_server
    rw [doRecvF_ok hb1 (show Buf.read_exact (E.recv_bytes1 (E.new_server ni pk sk)) si
        = Except.ok (si.take (E.recv_bytes1 (E.new_server ni pk sk)),
          si.drop (E.recv_bytes1 (E.new_server ni pk sk))) by simp [Buf, hlen]) hh]
    try simp only []
    rw [doSendF_ok hb2 (rfl : Buf.write_all
      (padTrunc (E.send_bytes2 s2) (E.send_server_hello s2).1)
      (si.drop (E.recv_bytes1 (E.new_server ni pk sk)))
      = Except.ok (si.drop (E.recv_bytes1 (E.new_server ni pk sk))))]
    try simp only []
    rw [doRecvF_readErr hb3 (show Buf.read_exact (E.recv_bytes3 (E.send_server_hello s2).2)
        (si.drop (E.recv_bytes1 (E.new_server ni pk sk))) = Except.error 0
        by simp [Buf]; omega)]
    simp

theorem truncation_transport_error_witness :
    handshake_client Buf SpecClient 1 2 3 4 []
      = (RunResult.fail (from_io_error 0), [Event.W [24, 7], Event.RErr 2 0]) ∧
    handshake_client Buf SpecClient 1 2 3 4 [36, 11]
      = (RunResult.fail (from_io_error 0),
         [Event.W [24, 7], Event.R 2 [36, 11], Event.W [9, 2], Event.RErr 1 0]) ∧
    handshake_server Buf SpecServer 1 4 5 []
      = (RunResult.fail (from_io_error 0), [Event.RErr 2 0]) ∧
    handshake_server Buf SpecServer 1 4 5 [24, 7]
      = (RunResult.fail (from_io_error 0),
         [Event.R 2 [24, 7], Event.W [36, 11], Event.RErr 2 0]) :=
  ⟨truncation_transport_error.1 SpecClient 1 2 3 4 [] (by decide) (by decide) (by decide),
   truncation_transport_error.2.1 SpecClient 1 2 3 4 [36, 11] ⟨1, 2, 3, 7, 11⟩
     ([9, 2], ⟨1, 2, 3, 7, 11, 4, 77⟩) (by decide) (by decide) (by decide) rfl
     (by decide) rfl (by decide) (by decide),
   truncation_transport_error.2.2.1 SpecServer 1 4 5 [] (by decide) (by decide),
   truncation_transport_error.2.2.2 SpecServer 1 4 5 [24, 7] ⟨1, 4, 5, 11, 7⟩
     (by decide) (by decide) rfl (by decide) (by decide) (by decide)⟩

/-- Claim C10 (implicit): both drivers slice every round buffer out of a
fixed 128-byte stack array, so they are panic-free exactly under the
precondition that every size the engine reports through send_bytes and
recv_bytes is at most 128: if all reported sizes are bounded by 128 the run
never panics, and if a reached round reports a larger size the slice
buf[..n] panics (the run ends in the panicked outcome, not an error). -/
theorem buffer_bound_panics :
    (∀ (SM : StreamModel) (E : ClientEngine) (ni pk sk server_pk : Nat) (st : SM.S),
      (∀ s1, E.send_bytes1 s1 ≤ 128) → (∀ s2, E.recv_bytes2 s2 ≤ 128) →
      (∀ s3, E.send_bytes3 s3 ≤ 128) → (∀ s4, E.recv_bytes4 s4 ≤ 128) →
      (handshake_client SM E ni pk sk server_pk st).1 ≠ RunResult.panicked) ∧
    (∀ (SM : StreamModel) (E : ServerEngine) (ni pk sk : Nat) (st : SM.S),
      (∀ s1, E.recv_bytes1 s1 ≤ 128) → (∀ s2, E.send_bytes2 s2 ≤ 128) →
      (∀ s3, E.recv_bytes3 s3 ≤ 128) → (∀ s4, E.send_bytes4 s4 ≤ 128) →
      (handshake_server SM E ni pk sk st).1 ≠ RunResult.panicked) ∧
    (∀ (SM : StreamModel) (E : ClientEngine) (ni pk sk server_pk : Nat) (st : SM.S),
      128 < E.send_bytes1 (E.new_client ni pk sk) →
      handshake_client SM E ni pk sk server_pk st = (RunResult.panicked, [])) ∧
    (∀ (E : ClientEngine) (ni pk sk server_pk : Nat) (ci : List Nat),
      E.send_bytes1 (E.new_client ni pk sk) ≤ 128 →
      128 < E.recv_bytes2 (E.send_client_hello (E.new_client ni pk sk)).2 →
      handshake_client Buf E ni pk sk server_pk ci
        = (RunResult.panicked,
           [Event.W (padTrunc (E.send_bytes1 (E.new_client ni pk sk))
              (E.send_client_hello (E.new_client ni pk sk)).1)])) ∧
    (∀ (SM : StreamModel) (E : ServerEngine) (ni pk sk : Nat) (st : SM.S),
      128 < E.recv_bytes1 (E.new_server ni pk sk) →
      handshake_server SM E ni pk sk st = (RunResult.panicked, [])) := by
  refine ⟨?_, ?_, ?_, ?_, ?_⟩
  · intro SM E ni pk sk server_pk st h1 h2 h3 h4 hpan
    have hrun : handshake_client SM E ni pk sk server_pk st
        = ((handshake_client SM E ni pk sk server_pk st).1,
           (handshake_client SM E ni pk sk server_pk st).2) := by
      rw [Prod.mk.eta]
    rw [hpan] at hrun
    unfold handshake_client at hrun
    rcases doSendF_inv hrun with ⟨hn, _⟩ | ⟨_, e, hfe, _⟩ | ⟨_, p, e, _, _, hout⟩ |
      ⟨_, p, st1, _, _, hout⟩
    · exact hn (h1 _)
    · simp at hfe
    · simp at hout
    · rcases doRecvF_inv hout.symm with ⟨hn, _⟩ | ⟨_, e, _, hout2⟩ |
        ⟨_, p2, e, _, _, hout2⟩ | ⟨_, p2, s3, _, _, hout2⟩
      · exact hn (h2 _)
      · simp at hout2
      · simp at hout2
      · rcases doSendF_inv hout2.symm with ⟨hn, _⟩ | ⟨_, e, _, hout3⟩ |
          ⟨_, p3, e, _, _, hout3⟩ | ⟨_, p3, st3, _, _, hout3⟩
        · exact hn (h3 _)
        · simp at hout3
        · simp at hout3
        · rcases doRecvF_inv hout3.symm with ⟨hn, _⟩ | ⟨_, e, _, hout4⟩ |
            ⟨_, p4, e, _, _, hout4⟩ | ⟨_, p4, s5, _, _, hout4⟩
          · exact hn (h4 _)
          · simp at hout4
          · simp at hout4
          · simp at hout4
  · intro SM E ni pk sk st h1 h2 h3 h4 hpan
    have hrun : handshake_server SM E ni pk sk st
        = ((handshake_server SM E ni pk sk st).1,
           (handshake_server SM E ni pk sk st).2) := by
      rw [Prod.mk.eta]
    rw [hpan] at hrun
    unfold handshake_server at hrun
    rcases doRecvF_inv hrun with ⟨hn, _⟩ | ⟨_, e, _, hout⟩ |
      ⟨_, p1, e, _, _, hout⟩ | ⟨_, p1, s2, _, _, hout⟩
    · exact hn (h1 _)
    · simp at hout
    · simp at hout
    · rcases doSendF_inv hout.symm with ⟨hn, _⟩ | ⟨_, e, hfe, _⟩ |
        ⟨_, p2, e, _, _, hout2⟩ | ⟨_, p2, st2, _, _, hout2⟩
      · exact hn (h2 _)
      · simp at hfe
      · simp at hout2
      · rcases doRecvF_inv hout2.symm with ⟨hn, _⟩ | ⟨_, e, _, hout3⟩ |
          ⟨_, p3, e, _, _, hout3⟩ | ⟨_, p3, s4, _, _, hout3⟩
        · exact hn (h3 _)
        · simp at hout3
        · simp at hout3
        · rcases doSendF_inv hout3.symm with ⟨hn, _⟩ | ⟨_, e, hfe4, _⟩ |
            ⟨_, p4, e, _, _, hout4⟩ | ⟨_, p4, st4, _, _, hout4⟩
          · exact hn (h4 _)
          · simp at hfe4
          · simp at hout4
          · simp at hout4
  · intro SM E ni pk sk server_pk st hn
    unfold handshake_client
    rw [doSendF_panic (by omega)]
  · intro E ni pk sk server_pk ci hb1 hn
    unfold handshake_client
    rw [doSendF_ok hb1 (rfl :
      Buf.write_all (padTrunc (E.send_bytes1 (E.new_client ni pk sk))
        (E.send_client_hello (E.new_client ni pk sk)).1) ci = Except.ok ci)]
    try simp only []
    rw [doRecvF_panic (by omega)]
    simp
  · intro SM E ni pk sk st hn
    unfold handshake_server
    rw [doRecvF_panic (by omega)]

theorem buffer_bound_panics_witness :
    (handshake_client Buf SpecClient 1 2 3 4 [36, 11, 234]).1 ≠ RunResult.panicked ∧
    (handshake_server Buf SpecServer 1 4 5 [24, 7, 9, 2]).1 ≠ RunResult.panicked ∧
    handshake_client Buf WideClient 1 2 3 4 [] = (RunResult.panicked, []) ∧
    handshake_client Buf Wide2Client 1 2 3 4 [] = (RunResult.panicked, [Event.W []]) ∧
    handshake_server Buf WideServer 1 4 5 [] = (RunResult.panicked, []) :=
  ⟨buffer_bound_panics.1 Buf SpecClient 1 2 3 4 [36, 11, 234]
     (fun _ => by show (2 : Nat) ≤ 128; decide) (fun _ => by show (2 : Nat) ≤ 128; decide)
     (fun _ => by show (2 : Nat) ≤ 128; decide) (fun _ => by show (1 : Nat) ≤ 128; decide),
   buffer_bound_panics.2.1 Buf SpecServer 1 4 5 [24, 7, 9, 2]
     (fun _ => by show (2 : Nat) ≤ 128; decide) (fun _ => by show (2 : Nat) ≤ 128; decide)
     (fun _ => by show (2 : Nat) ≤ 128; decide) (fun _ => by show (1 : Nat) ≤ 128; decide),
   buffer_bound_panics.2.2.1 Buf WideClient 1 2 3 4 [] (by decide),
   buffer_bound_panics.2.2.2.1 Wide2Client 1 2 3 4 [] (by decide) (by decide),
   buffer_bound_panics.2.2.2.2 Buf WideServer 1 4 5 [] (by decide)⟩

end SSB
